import Mathlib

/-!
Verification development for the termix-agent repository.

The Go sources are shallowly embedded: pure computations become Lean
functions, the stateful managers become explicit state-passing step
functions, machine integers become `Nat`/`Int`, and fallible operations
return `Option`.  OS-level effects (user lookup, PATH search, process
spawning, the wall clock) are passed in as explicit parameters, so every
definition is executable.
-/

namespace Termix

/-! ## Base64 (encoding/base64 StdEncoding, as used by the command executor)

`b64Encode` is Go's `base64.StdEncoding.EncodeToString` over a byte list:
groups of three bytes become four alphabet characters, with `=` padding
for a final group of one or two bytes. -/

def b64Alphabet : List Char :=
  "ABCDEFGHIJKLMNOPQRSTUVWXYZabcdefghijklmnopqrstuvwxyz0123456789+/".toList

def b64Char (n : Nat) : Char := b64Alphabet.getD n 'A'

def b64Encode : List Nat → List Char
  | b0 :: b1 :: b2 :: rest =>
      let n := (b0 % 256) * 65536 + (b1 % 256) * 256 + (b2 % 256)
      b64Char (n / 262144) :: b64Char (n / 4096 % 64) :: b64Char (n / 64 % 64) ::
        b64Char (n % 64) :: b64Encode rest
  | [b0, b1] =>
      let n := (b0 % 256) * 65536 + (b1 % 256) * 256
      [b64Char (n / 262144), b64Char (n / 4096 % 64), b64Char (n / 64 % 64), '=']
  | [b0] =>
      let n := (b0 % 256) * 65536
      [b64Char (n / 262144), b64Char (n / 4096 % 64), '=', '=']
  | [] => []

theorem b64Encode_length : ∀ l : List Nat, (b64Encode l).length = 4 * ((l.length + 2) / 3)
  | [] => rfl
  | [_] => by simp [b64Encode]
  | [_, _] => by simp [b64Encode]
  | _ :: _ :: _ :: rest => by
      simp only [b64Encode, List.length_cons, b64Encode_length rest]
      omega

/-! ## Command executor (config.go: constants, `Execute`, `executeCommand`) -/

def cmdRunningLimit : Nat := 5
def cmdExecDefaultTimeout : Int := 30
def cmdExecMaxTimeout : Int := 600

def CmdErrNone : Nat := 0
def CmdErrPermit : Nat := 1
def CmdErrNotFound : Nat := 2
def CmdErrNoMem : Nat := 3
def CmdErrSysErr : Nat := 4
def CmdErrRespTooBig : Nat := 5

/-- os/user.User, the fields the agent reads. -/
structure GoUser where
  Uid : String
  Gid : String
  Username : String
  HomeDir : String
deriving Repr, DecidableEq

/-- ExecCmdData (main.go:360-365).  Note: the declared struct carries no
Timeout field, although `Execute` (config.go:457) reads `cmd.Timeout`. -/
structure ExecCmdData where
  Token : String
  Username : String
  Command : String
  Args : List String
deriving Repr, DecidableEq

/-- OS-dependent lookups performed by `Execute`: `user.Lookup` (none models a
lookup error) and `exec.LookPath` (none models a lookup error; the code also
treats an empty result path as not found). -/
structure ExecEnv where
  lookupUser : String → Option GoUser
  lookPath : String → Option String

/-- The timeout computation in `Execute` (config.go:456-462), in seconds:
default 30 when the field is unset (non-positive), capped at 600. -/
def computeTimeout (timeoutField : Int) : Int :=
  if timeoutField > 0 then
    if timeoutField > cmdExecMaxTimeout then cmdExecMaxTimeout else timeoutField
  else cmdExecDefaultTimeout

inductive ExecOutcome where
  | rejected (code : Nat) (message : String)
  | admitted (u : Option GoUser) (cmdPath : String) (args : List String)
      (token : String) (timeout : Int)
deriving Repr, DecidableEq

/-- Model of `Execute` (config.go:433-472).  `inFlight` is the number of slots of the
5-permit `cmdSemaphore` currently held; the `select`-with-`default` acquire
is non-blocking, so the function is total and returns at once.
`timeoutField` stands for the expression `cmd.Timeout`, which the declared
`ExecCmdData` struct does not provide (see C1). -/
def Execute (env : ExecEnv) (inFlight : Nat) (cmd : ExecCmdData)
    (timeoutField : Int) : ExecOutcome :=
  let uRes : Option (Option GoUser) :=
    if cmd.Username ≠ "" then
      match env.lookupUser cmd.Username with
      | none => none
      | some u => some (some u)
    else some none
  match uRes with
  | none => .rejected CmdErrPermit "operation not permitted"
  | some u =>
    match env.lookPath cmd.Command with
    | none => .rejected CmdErrNotFound "command not found"
    | some cmdPath =>
      if cmdPath = "" then .rejected CmdErrNotFound "command not found"
      else
        let timeout := computeTimeout timeoutField
        if inFlight < cmdRunningLimit then
          .admitted u cmdPath cmd.Args cmd.Token timeout
        else .rejected CmdErrNoMem "too many concurrent commands"

/-- Outcome of `cmd.Run()` inside `executeCommand` (config.go:496-510):
`ok` is a nil error (exit 0), `exit c` is an `*exec.ExitError` carrying the
process exit code, `deadline` is a non-nil error with
`ctx.Err() == context.DeadlineExceeded`, and `failed` is any other
(process-launch-level) error. -/
inductive RunOutcome where
  | ok
  | exit (code : Int)
  | deadline
  | failed (msg : String)
deriving Repr, DecidableEq

/-- The reply `executeCommand` pushes through its callbacks: a `cmd_result`
payload or a `cmd_error` (token, code, message). -/
inductive CmdReply where
  | result (token : String) (exitCode : Int) (stdout stderr : List Char)
  | error (token : String) (code : Nat) (message : String)
deriving Repr, DecidableEq

/-- Model of `executeCommand` (config.go:474-530): the completion mapping after the
subprocess ran, given the captured stdout/stderr bytes. -/
def executeCommand (token : String) (outcome : RunOutcome)
    (stdoutBytes stderrBytes : List Nat) : CmdReply :=
  match outcome with
  | .deadline => .error token CmdErrSysErr "command timeout"
  | .failed msg => .error token CmdErrSysErr msg
  | o =>
    let exitCode : Int := match o with | .exit c => c | _ => 0
    let stdoutB64 := b64Encode stdoutBytes
    let stderrB64 := b64Encode stderrBytes
    if stdoutB64.length + stderrB64.length > 65000 then
      .error token CmdErrRespTooBig "stdout+stderr is too big"
    else .result token exitCode stdoutB64 stderrB64

/-! ## Reconnect backoff (agent.go: constants and the `Run` loop) -/

def minReconnectDelay : Nat := 5
def maxReconnectDelay : Nat := 60

/-- Doubling step of `Run` (agent.go:95-98), applied after sleeping. -/
def bumpDelay (d : Nat) : Nat :=
  if d * 2 > maxReconnectDelay then maxReconnectDelay else d * 2

/-- One iteration of the `Run` loop with reconnection enabled:
`dialFail` is `a.connect()` returning an error (sleep the current delay,
then double it, agent.go:91-98); `sessionEnd` is a successful connect
(delay reset, agent.go:103) whose `mainLoop` later ends, followed by the
sleep at agent.go:126. -/
inductive ConnEvent where
  | dialFail
  | sessionEnd
deriving Repr, DecidableEq

/-- Returns the delay state after the iteration and the list of delays
slept during it. -/
def runIter (d : Nat) : ConnEvent → Nat × List Nat
  | .dialFail => (bumpDelay d, [d])
  | .sessionEnd => (minReconnectDelay, [minReconnectDelay])

def runTrace (d : Nat) : List ConnEvent → Nat × List Nat
  | [] => (d, [])
  | e :: es =>
      let step := runIter d e
      let rest := runTrace step.1 es
      (rest.1, step.2 ++ rest.2)

/-! ## Pseudo-terminal backends -/

/-- The `exec.Cmd` as configured by the POSIX `NewTerminal`
(src/unnamed/part_001): program path, arguments, environment entries
(`cmd.Env`; when non-nil it is the child's entire environment), working
directory (`cmd.Dir`, empty means inherit) and the optional
`SysProcAttr.Credential` (uid, gid), which `NewTerminal` never sets. -/
structure SpawnSpec where
  path : String
  args : List String
  env : List String
  dir : String
  cred : Option (Nat × Nat)
deriving Repr, DecidableEq

/-- POSIX `NewTerminal` (src/unnamed/part_001:37-78).  `envShell` is
`os.Getenv "SHELL"`, `environ` is `os.Environ()`, `lookup` is
`user.Lookup`.  The command always runs `shell -l` under the agent's own
credentials; a resolvable identity with nonempty home only overrides
HOME/USER/LOGNAME and the working directory. -/
def NewTerminal (envShell : String) (environ : List String)
    (lookup : String → Option GoUser) (username : String) : SpawnSpec :=
  let shell := if envShell = "" then "/bin/sh" else envShell
  let base : SpawnSpec :=
    if username ≠ "" then
      match lookup username with
      | some u =>
          if u.HomeDir ≠ "" then
            { path := shell, args := ["-l"],
              env := environ ++
                ["HOME=" ++ u.HomeDir, "USER=" ++ username, "LOGNAME=" ++ username],
              dir := u.HomeDir, cred := none }
          else { path := shell, args := ["-l"], env := [], dir := "", cred := none }
      | none => { path := shell, args := ["-l"], env := [], dir := "", cred := none }
    else { path := shell, args := ["-l"], env := [], dir := "", cred := none }
  { base with env := base.env ++ ["TERM=xterm-256color"] }

namespace PosixPty

/-- POSIX `Terminal` runtime state (src/unnamed/part_001): whether the
child process is alive and whether the pty master `os.File` is open.
A constructed terminal always has a non-nil pty. -/
structure Terminal where
  procAlive : Bool
  ptyOpen : Bool
deriving Repr, DecidableEq

/-- Semantics of `os.File.Close`: closing an already-closed file returns
`os.ErrClosed` ("file already closed"). -/
def fileClose (isOpen : Bool) : Bool × Option String :=
  if isOpen then (false, none) else (false, some "file already closed")

/-- POSIX `Terminal.Close` (src/unnamed/part_001:107-120): kill the child
(error ignored), then close the pty file and return its result.  There is
no once-guard or closed flag. -/
def Terminal.close (t : Terminal) : Terminal × Option String :=
  let t1 : Terminal := { t with procAlive := false }
  let r := fileClose t1.ptyOpen
  ({ t1 with ptyOpen := r.1 }, r.2)

end PosixPty

namespace WinPty

/-- Windows `Terminal` runtime state (terminal_windows.go): the
`sync.Once` guard of `Close`, the closed flag, and whether the ConPTY
handle has been released. -/
structure Terminal where
  onceDone : Bool
  closed : Bool
  ptyReleased : Bool
deriving Repr, DecidableEq

/-- Windows `Terminal.Close` (terminal_windows.go:66-74): the body runs at
most once via `closeOnce.Do`; the return value is always nil. -/
def Terminal.close (t : Terminal) : Terminal × Option String :=
  if t.onceDone then (t, none)
  else ({ onceDone := true, closed := true, ptyReleased := true }, none)

end WinPty

/-! ## Message codec (main.go: message types, `MarshalMessage`, `ParseMessage`,
`UnmarshalData`)

JSON documents are embedded as a value tree; Go's `encoding/json` behaviour
for the struct shapes of main.go is modelled field by field: a `json:"..."`
tag gives the member key, `omitempty` drops zero-valued members on encode,
a missing member decodes to the zero value, unknown members are ignored,
and a member of the wrong type is a decode error.  All objects produced by
the encoders have pairwise distinct member keys, so first-match lookup
agrees with Go. -/

inductive Json where
  | str (s : String)
  | num (n : Int)
  | jbool (b : Bool)
  | arr (elems : List Json)
  | obj (fields : List (String × Json))
  | null
deriving Repr

def jsonLookup : List (String × Json) → String → Option Json
  | [], _ => none
  | (k, v) :: rest, key => if k = key then some v else jsonLookup rest key

/-- Decode a string member: missing means the zero value `""`. -/
def getStr (fs : List (String × Json)) (key : String) : Option String :=
  match jsonLookup fs key with
  | none => some ""
  | some (.str s) => some s
  | some _ => none

/-- Decode an integer member (int/int64): missing means `0`. -/
def getInt (fs : List (String × Json)) (key : String) : Option Int :=
  match jsonLookup fs key with
  | none => some 0
  | some (.num n) => some n
  | some _ => none

/-- Decode an unsigned member (uint16): missing means `0`, negative is a
decode error. -/
def getNat (fs : List (String × Json)) (key : String) : Option Nat :=
  match jsonLookup fs key with
  | none => some 0
  | some (.num n) => if n < 0 then none else some n.toNat
  | some _ => none

/-- Decode a boolean member: missing means `false`. -/
def getBool (fs : List (String × Json)) (key : String) : Option Bool :=
  match jsonLookup fs key with
  | none => some false
  | some (.jbool b) => some b
  | some _ => none

def decodeStrArr : List Json → Option (List String)
  | [] => some []
  | .str s :: rest => (decodeStrArr rest).map (fun l => s :: l)
  | _ :: _ => none

/-- Decode a `[]string` member: missing means the nil slice. -/
def getStrList (fs : List (String × Json)) (key : String) : Option (List String) :=
  match jsonLookup fs key with
  | none => some []
  | some (.arr xs) => decodeStrArr xs
  | some _ => none

/-- An `omitempty`-tagged string member. -/
def omitStr (key : String) (v : String) : List (String × Json) :=
  if v = "" then [] else [(key, .str v)]

/-- An `omitempty`-tagged `[]string` member. -/
def omitStrArr (key : String) (v : List String) : List (String × Json) :=
  if v = [] then [] else [(key, .arr (v.map .str))]

theorem jsonLookup_append (xs ys : List (String × Json)) (key : String) :
    jsonLookup (xs ++ ys) key =
      match jsonLookup xs key with
      | some v => some v
      | none => jsonLookup ys key := by
  induction xs with
  | nil => simp [jsonLookup]
  | cons hd tl ih =>
      obtain ⟨k, v⟩ := hd
      by_cases h : k = key <;> simp [jsonLookup, h, ih]

theorem decodeStrArr_map (l : List String) :
    decodeStrArr (l.map Json.str) = some l := by
  induction l with
  | nil => rfl
  | cons hd tl ih => simp [decodeStrArr, ih]

/-! ### Payload structs (main.go) and their codecs -/

structure RegisterData where
  DeviceID : String
  Token : String
  Hostname : String
  Platform : String
  OS : String
  Arch : String
  GoVersion : String
deriving Repr, DecidableEq

def RegisterData.marshal (d : RegisterData) : Json :=
  .obj ([("deviceId", .str d.DeviceID), ("token", .str d.Token),
    ("hostname", .str d.Hostname), ("platform", .str d.Platform)]
    ++ omitStr "os" d.OS ++ omitStr "arch" d.Arch ++ omitStr "goVersion" d.GoVersion)

def RegisterData.unmarshal : Json → Option RegisterData
  | .obj fs => do
      let deviceId ← getStr fs "deviceId"
      let token ← getStr fs "token"
      let hostname ← getStr fs "hostname"
      let platform ← getStr fs "platform"
      let os ← getStr fs "os"
      let arch ← getStr fs "arch"
      let goVersion ← getStr fs "goVersion"
      some ⟨deviceId, token, hostname, platform, os, arch, goVersion⟩
  | _ => none

theorem registerData_roundtrip (d : RegisterData) :
    RegisterData.unmarshal d.marshal = some d := by
  obtain ⟨f1, f2, f3, f4, f5, f6, f7⟩ := d
  by_cases h5 : f5 = "" <;> by_cases h6 : f6 = "" <;> by_cases h7 : f7 = "" <;>
    simp [RegisterData.marshal, RegisterData.unmarshal, omitStr, getStr, jsonLookup, h5, h6, h7]

structure HeartbeatData where
  Uptime : Int
deriving Repr, DecidableEq

def HeartbeatData.marshal (d : HeartbeatData) : Json :=
  .obj [("uptime", .num d.Uptime)]

def HeartbeatData.unmarshal : Json → Option HeartbeatData
  | .obj fs => do
      let uptime ← getInt fs "uptime"
      some ⟨uptime⟩
  | _ => none

theorem heartbeatData_roundtrip (d : HeartbeatData) :
    HeartbeatData.unmarshal d.marshal = some d := by
  obtain ⟨f1⟩ := d
  simp +decide [HeartbeatData.marshal, HeartbeatData.unmarshal, getInt, jsonLookup]

structure PtyDataMsg where
  SessionID : String
  Data : String
deriving Repr, DecidableEq

def PtyDataMsg.marshal (d : PtyDataMsg) : Json :=
  .obj [("sessionId", .str d.SessionID), ("data", .str d.Data)]

def PtyDataMsg.unmarshal : Json → Option PtyDataMsg
  | .obj fs => do
      let sessionId ← getStr fs "sessionId"
      let data ← getStr fs "data"
      some ⟨sessionId, data⟩
  | _ => none

theorem ptyDataMsg_roundtrip (d : PtyDataMsg) :
    PtyDataMsg.unmarshal d.marshal = some d := by
  obtain ⟨f1, f2⟩ := d
  simp [PtyDataMsg.marshal, PtyDataMsg.unmarshal, getStr, jsonLookup]

structure PtyExitMsg where
  SessionID : String
  Code : Int
deriving Repr, DecidableEq

def PtyExitMsg.marshal (d : PtyExitMsg) : Json :=
  .obj [("sessionId", .str d.SessionID), ("code", .num d.Code)]

def PtyExitMsg.unmarshal : Json → Option PtyExitMsg
  | .obj fs => do
      let sessionId ← getStr fs "sessionId"
      let code ← getInt fs "code"
      some ⟨sessionId, code⟩
  | _ => none

theorem ptyExitMsg_roundtrip (d : PtyExitMsg) :
    PtyExitMsg.unmarshal d.marshal = some d := by
  obtain ⟨f1, f2⟩ := d
  simp [PtyExitMsg.marshal, PtyExitMsg.unmarshal, getStr, getInt, jsonLookup]

structure CmdResultData where
  Token : String
  ExitCode : Int
  Stdout : String
  Stderr : String
deriving Repr, DecidableEq

def CmdResultData.marshal (d : CmdResultData) : Json :=
  .obj [("token", .str d.Token), ("exitCode", .num d.ExitCode),
    ("stdout", .str d.Stdout), ("stderr", .str d.Stderr)]

def CmdResultData.unmarshal : Json → Option CmdResultData
  | .obj fs => do
      let token ← getStr fs "token"
      let exitCode ← getInt fs "exitCode"
      let stdout ← getStr fs "stdout"
      let stderr ← getStr fs "stderr"
      some ⟨token, exitCode, stdout, stderr⟩
  | _ => none

theorem cmdResultData_roundtrip (d : CmdResultData) :
    CmdResultData.unmarshal d.marshal = some d := by
  obtain ⟨f1, f2, f3, f4⟩ := d
  simp [CmdResultData.marshal, CmdResultData.unmarshal, getStr, getInt, jsonLookup]

structure CmdErrorData where
  Token : String
  Code : Int
  Message : String
deriving Repr, DecidableEq

def CmdErrorData.marshal (d : CmdErrorData) : Json :=
  .obj [("token", .str d.Token), ("code", .num d.Code), ("message", .str d.Message)]

def CmdErrorData.unmarshal : Json → Option CmdErrorData
  | .obj fs => do
      let token ← getStr fs "token"
      let code ← getInt fs "code"
      let message ← getStr fs "message"
      some ⟨token, code, message⟩
  | _ => none

theorem cmdErrorData_roundtrip (d : CmdErrorData) :
    CmdErrorData.unmarshal d.marshal = some d := by
  obtain ⟨f1, f2, f3⟩ := d
  simp [CmdErrorData.marshal, CmdErrorData.unmarshal, getStr, getInt, jsonLookup]

structure RegisterAckData where
  Success : Bool
  Message : String
deriving Repr, DecidableEq

def RegisterAckData.marshal (d : RegisterAckData) : Json :=
  .obj ([("success", .jbool d.Success)] ++ omitStr "message" d.Message)

def RegisterAckData.unmarshal : Json → Option RegisterAckData
  | .obj fs => do
      let success ← getBool fs "success"
      let message ← getStr fs "message"
      some ⟨success, message⟩
  | _ => none

theorem registerAckData_roundtrip (d : RegisterAckData) :
    RegisterAckData.unmarshal d.marshal = some d := by
  obtain ⟨f1, f2⟩ := d
  by_cases h2 : f2 = "" <;>
    simp [RegisterAckData.marshal, RegisterAckData.unmarshal, omitStr, getStr, getBool, jsonLookup, h2]

structure SpawnPtyData where
  SessionID : String
  Cols : Nat
  Rows : Nat
  Username : String
deriving Repr, DecidableEq

def SpawnPtyData.marshal (d : SpawnPtyData) : Json :=
  .obj ([("sessionId", .str d.SessionID), ("cols", .num d.Cols),
    ("rows", .num d.Rows)] ++ omitStr "username" d.Username)

def SpawnPtyData.unmarshal : Json → Option SpawnPtyData
  | .obj fs => do
      let sessionId ← getStr fs "sessionId"
      let cols ← getNat fs "cols"
      let rows ← getNat fs "rows"
      let username ← getStr fs "username"
      some ⟨sessionId, cols, rows, username⟩
  | _ => none

theorem spawnPtyData_roundtrip (d : SpawnPtyData) :
    SpawnPtyData.unmarshal d.marshal = some d := by
  obtain ⟨f1, f2, f3, f4⟩ := d
  have hf2 : ¬((f2 : Int) < 0) := by omega
  have hf3 : ¬((f3 : Int) < 0) := by omega
  by_cases h4 : f4 = "" <;>
    simp [SpawnPtyData.marshal, SpawnPtyData.unmarshal, omitStr, getStr, getNat, jsonLookup, h4, hf2, hf3]

structure PtyInputData where
  SessionID : String
  Data : String
deriving Repr, DecidableEq

def PtyInputData.marshal (d : PtyInputData) : Json :=
  .obj [("sessionId", .str d.SessionID), ("data", .str d.Data)]

def PtyInputData.unmarshal : Json → Option PtyInputData
  | .obj fs => do
      let sessionId ← getStr fs "sessionId"
      let data ← getStr fs "data"
      some ⟨sessionId, data⟩
  | _ => none

theorem ptyInputData_roundtrip (d : PtyInputData) :
    PtyInputData.unmarshal d.marshal = some d := by
  obtain ⟨f1, f2⟩ := d
  simp [PtyInputData.marshal, PtyInputData.unmarshal, getStr, jsonLookup]

structure PtyResizeData where
  SessionID : String
  Cols : Nat
  Rows : Nat
deriving Repr, DecidableEq

def PtyResizeData.marshal (d : PtyResizeData) : Json :=
  .obj [("sessionId", .str d.SessionID), ("cols", .num d.Cols), ("rows", .num d.Rows)]

def PtyResizeData.unmarshal : Json → Option PtyResizeData
  | .obj fs => do
      let sessionId ← getStr fs "sessionId"
      let cols ← getNat fs "cols"
      let rows ← getNat fs "rows"
      some ⟨sessionId, cols, rows⟩
  | _ => none

theorem ptyResizeData_roundtrip (d : PtyResizeData) :
    PtyResizeData.unmarshal d.marshal = some d := by
  obtain ⟨f1, f2, f3⟩ := d
  have hf2 : ¬((f2 : Int) < 0) := by omega
  have hf3 : ¬((f3 : Int) < 0) := by omega
  simp [PtyResizeData.marshal, PtyResizeData.unmarshal, getStr, getNat, jsonLookup, hf2, hf3]

structure ClosePtyData where
  SessionID : String
deriving Repr, DecidableEq

def ClosePtyData.marshal (d : ClosePtyData) : Json :=
  .obj [("sessionId", .str d.SessionID)]

def ClosePtyData.unmarshal : Json → Option ClosePtyData
  | .obj fs => do
      let sessionId ← getStr fs "sessionId"
      some ⟨sessionId⟩
  | _ => none

theorem closePtyData_roundtrip (d : ClosePtyData) :
    ClosePtyData.unmarshal d.marshal = some d := by
  obtain ⟨f1⟩ := d
  simp [ClosePtyData.marshal, ClosePtyData.unmarshal, getStr, jsonLookup]

/-- Encoder for `ExecCmdData` (main.go:360-365): exactly the members
`token`, `username` (omitempty), `command`, `args` (omitempty).  There is
no `timeout` member. -/
def ExecCmdData.marshal (d : ExecCmdData) : Json :=
  .obj ([("token", .str d.Token)] ++ omitStr "username" d.Username
    ++ [("command", .str d.Command)] ++ omitStrArr "args" d.Args)

def ExecCmdData.unmarshal : Json → Option ExecCmdData
  | .obj fs => do
      let token ← getStr fs "token"
      let username ← getStr fs "username"
      let command ← getStr fs "command"
      let args ← getStrList fs "args"
      some ⟨token, username, command, args⟩
  | _ => none

theorem execCmdData_roundtrip (d : ExecCmdData) :
    ExecCmdData.unmarshal d.marshal = some d := by
  obtain ⟨f1, f2, f3, f4⟩ := d
  by_cases h2 : f2 = "" <;> by_cases h4 : f4 = ([] : List String) <;>
    simp [ExecCmdData.marshal, ExecCmdData.unmarshal, omitStr, omitStrArr, getStr, getStrList,
      jsonLookup, decodeStrArr_map, h2, h4]

/-! ### The envelope (`Message`, `MarshalMessage`, `ParseMessage`,
`UnmarshalData`) and the catalogue of message types -/

/-- Model of `Message` (main.go:275-278): the field `Type'` models the Go field
`Type` (a keyword in Lean); `Data` is a `json.RawMessage` tagged
`omitempty`, with `none` modelling the nil raw message. -/
structure Message where
  Type' : String
  Data : Option Json
deriving Repr

/-- One message of the catalogued core protocol types, with its payload. -/
inductive AgentMsg where
  | register (d : RegisterData)
  | heartbeat (d : HeartbeatData)
  | ptyData (d : PtyDataMsg)
  | ptyExit (d : PtyExitMsg)
  | cmdResult (d : CmdResultData)
  | cmdError (d : CmdErrorData)
  | pong
  | registerAck (d : RegisterAckData)
  | spawnPty (d : SpawnPtyData)
  | ptyInput (d : PtyInputData)
  | ptyResize (d : PtyResizeData)
  | closePty (d : ClosePtyData)
  | execCmd (d : ExecCmdData)
  | ping
deriving Repr

/-- The wire `type` discriminator (the MsgType constants of main.go). -/
def msgType : AgentMsg → String
  | .register _ => "register"
  | .heartbeat _ => "heartbeat"
  | .ptyData _ => "pty_data"
  | .ptyExit _ => "pty_exit"
  | .cmdResult _ => "cmd_result"
  | .cmdError _ => "cmd_error"
  | .pong => "pong"
  | .registerAck _ => "register_ack"
  | .spawnPty _ => "spawn_pty"
  | .ptyInput _ => "pty_input"
  | .ptyResize _ => "pty_resize"
  | .closePty _ => "close_pty"
  | .execCmd _ => "exec_cmd"
  | .ping => "ping"

/-- The marshalled payload handed to `NewMessage` (main.go:370-385); `none`
models a nil `data` argument, which leaves the raw message nil. -/
def msgData : AgentMsg → Option Json
  | .register d => some d.marshal
  | .heartbeat d => some d.marshal
  | .ptyData d => some d.marshal
  | .ptyExit d => some d.marshal
  | .cmdResult d => some d.marshal
  | .cmdError d => some d.marshal
  | .pong => none
  | .registerAck d => some d.marshal
  | .spawnPty d => some d.marshal
  | .ptyInput d => some d.marshal
  | .ptyResize d => some d.marshal
  | .closePty d => some d.marshal
  | .execCmd d => some d.marshal
  | .ping => none

/-- Model of `MarshalMessage` (main.go:388-394): the `{type, data}` envelope with
the `data` member omitted when the message carries no payload. -/
def MarshalMessage (m : AgentMsg) : Json :=
  .obj (("type", .str (msgType m)) ::
    (match msgData m with
     | none => []
     | some d => [("data", d)]))

/-- Model of `ParseMessage` (main.go:396-403): decode the envelope only; the `data`
member is kept raw. -/
def ParseMessage (j : Json) : Option Message :=
  match j with
  | .obj fs => do
      let t ← getStr fs "type"
      some ⟨t, jsonLookup fs "data"⟩
  | _ => none

/-- Model of `UnmarshalData` (main.go:406-412): decode the raw payload into the
shape `dec` expects; `json.Unmarshal` on a nil raw message is an error. -/
def UnmarshalData {T : Type} (dec : Json → Option T) (msg : Message) : Option T :=
  match msg.Data with
  | none => none
  | some j => dec j

/-- Composition of `ParseMessage` followed by the per-type `UnmarshalData` of the dispatch
table (agent.go `handleMessage` and the server-bound counterparts): decode
one catalogued frame. -/
def decodeMessage (j : Json) : Option AgentMsg := do
  let msg ← ParseMessage j
  match msg.Type' with
  | "register" => (UnmarshalData RegisterData.unmarshal msg).map .register
  | "heartbeat" => (UnmarshalData HeartbeatData.unmarshal msg).map .heartbeat
  | "pty_data" => (UnmarshalData PtyDataMsg.unmarshal msg).map .ptyData
  | "pty_exit" => (UnmarshalData PtyExitMsg.unmarshal msg).map .ptyExit
  | "cmd_result" => (UnmarshalData CmdResultData.unmarshal msg).map .cmdResult
  | "cmd_error" => (UnmarshalData CmdErrorData.unmarshal msg).map .cmdError
  | "pong" => some .pong
  | "register_ack" => (UnmarshalData RegisterAckData.unmarshal msg).map .registerAck
  | "spawn_pty" => (UnmarshalData SpawnPtyData.unmarshal msg).map .spawnPty
  | "pty_input" => (UnmarshalData PtyInputData.unmarshal msg).map .ptyInput
  | "pty_resize" => (UnmarshalData PtyResizeData.unmarshal msg).map .ptyResize
  | "close_pty" => (UnmarshalData ClosePtyData.unmarshal msg).map .closePty
  | "exec_cmd" => (UnmarshalData ExecCmdData.unmarshal msg).map .execCmd
  | "ping" => some .ping
  | _ => none

/-! ## Session manager (config.go: `SessionManager`, `TermSession`,
`readLoop`, `inactivityMonitor`)

The concurrent Go code is embedded as a sequential state machine: each
operation of the manager, and each observable action of a session's reader
task and inactivity watchdog, is one atomic step on an explicit state.
Time is an explicit parameter in seconds. -/

def maxSessions : Nat := 10
def inactivityTimeout : Nat := 600

/-- One `TermSession` object (config.go:132-140): session id, closed flag,
last-activity timestamp.  Objects outlive their registry entry because the
reader and watchdog tasks still hold them. -/
structure SessionObj where
  id : String
  closed : Bool
  last : Nat
deriving Repr, DecidableEq

/-- Manager state: the `sync.Map` registry (session id ↦ index into
`objs`), every session object created so far, the atomic `sessionCount`
(an `int32`, modelled as `Int` so that a negative drift would be visible),
and the trace of `sendExit` notifications as (object index, session id)
pairs. -/
structure SMState where
  reg : List (String × Nat)
  objs : List SessionObj
  sessionCount : Int
  exits : List (Nat × String)
deriving Repr, DecidableEq

/-- Model of `NewSessionManager` (config.go:121-129): empty registry, zero count. -/
def SMState.init : SMState := ⟨[], [], 0, []⟩

/-- Lookup (`sync.Map.Load`) on the registry. -/
def regLookup : List (String × Nat) → String → Option Nat
  | [], _ => none
  | e :: rest, id => if e.1 = id then some e.2 else regLookup rest id

/-- Deletion (`sync.Map.Delete`) on the registry. -/
def regDelete : List (String × Nat) → String → List (String × Nat)
  | [], _ => []
  | e :: rest, id => if e.1 = id then regDelete rest id else e :: regDelete rest id

/-- Point update of one session object. -/
def modifyObj (f : SessionObj → SessionObj) : List SessionObj → Nat → List SessionObj
  | [], _ => []
  | o :: rest, 0 => f o :: rest
  | o :: rest, n + 1 => o :: modifyObj f rest n

/-- Total access to a session object; the out-of-range default is a closed
object, so actions of tasks holding no real object are no-ops. -/
def objAt : List SessionObj → Nat → SessionObj
  | [], _ => ⟨"", true, 0⟩
  | o :: _, 0 => o
  | _ :: rest, n + 1 => objAt rest n

def closeObj (o : SessionObj) : SessionObj := { o with closed := true }

inductive SpawnResult where
  | ok
  | errMaxSessions
  | errSessionExists
  | errTerminal
deriving Repr, DecidableEq

/-- Model of `SpawnSession` (config.go:143-191).  `terminalOk` models whether
`NewTerminal` and the initial `SetWinSize` succeed; `now` is `time.Now()`.
Checks happen in source order: session limit, duplicate id, terminal
creation; only then is the session stored and the count incremented. -/
def SpawnSession (st : SMState) (id : String) (terminalOk : Bool) (now : Nat) :
    SMState × SpawnResult :=
  if st.sessionCount ≥ (maxSessions : Int) then (st, .errMaxSessions)
  else if (regLookup st.reg id).isSome then (st, .errSessionExists)
  else if terminalOk = false then (st, .errTerminal)
  else
    ({ st with
        reg := (id, st.objs.length) :: st.reg,
        objs := st.objs ++ [⟨id, false, now⟩],
        sessionCount := st.sessionCount + 1 }, .ok)

/-- Model of `CloseSession` (config.go:203-215): `LoadAndDelete`, close the session
object, decrement the count.  Returns whether the id was found
(`ErrNoSession` otherwise, with no state change). -/
def CloseSession (st : SMState) (id : String) : SMState × Bool :=
  match regLookup st.reg id with
  | none => (st, false)
  | some k =>
      ({ st with
          reg := regDelete st.reg id,
          objs := modifyObj closeObj st.objs k,
          sessionCount := st.sessionCount - 1 }, true)

/-- The `Range` body of `CloseAllSessions` applied to every registry
entry. -/
def closeRegistered : List (String × Nat) → List SessionObj → List SessionObj
  | [], objs => objs
  | e :: rest, objs => closeRegistered rest (modifyObj closeObj objs e.2)

/-- Model of `CloseAllSessions` (config.go:218-228): close and delete every
registered session, decrementing the count once per entry. -/
def CloseAllSessions (st : SMState) : SMState :=
  { st with
      reg := [],
      objs := closeRegistered st.reg st.objs,
      sessionCount := st.sessionCount - st.reg.length }

/-- Models of `TermSession.Write` (config.go:236-247) and `Resize`
(config.go:259-269) as dispatched through `GetSession`: `ErrNoSession`
when the id is absent or the session is closed; otherwise the
last-activity timestamp is refreshed and the data/size is forwarded to the
pty.  Returns whether the operation was accepted. -/
def touchActivity (st : SMState) (id : String) (now : Nat) : SMState × Bool :=
  match regLookup st.reg id with
  | none => (st, false)
  | some k =>
      if (objAt st.objs k).closed then (st, false)
      else
        ({ st with objs := modifyObj (fun o => { o with last := now }) st.objs k },
          true)

/-- A successful pty read of `n > 0` bytes in `readLoop`
(config.go:319-326): refresh the last-activity timestamp (and forward the
data). -/
def readerData (st : SMState) (k : Nat) (now : Nat) : SMState :=
  { st with objs := modifyObj (fun o => { o with last := now }) st.objs k }

/-- The common session-end path of `readLoop` (config.go:302-315) and
`inactivityMonitor` (config.go:345-355): `sendExit` once, delete the id
from the registry, decrement the count, close the session. -/
def endSession (st : SMState) (k : Nat) : SMState :=
  { reg := regDelete st.reg (objAt st.objs k).id,
    objs := modifyObj closeObj st.objs k,
    sessionCount := st.sessionCount - 1,
    exits := st.exits ++ [(k, (objAt st.objs k).id)] }

/-- The read-error path of the reader task of object `k`
(config.go:296-317): if the session is not already closed, it runs the
session-end path; otherwise the task just returns. -/
def readerErr (st : SMState) (k : Nat) : SMState :=
  if (objAt st.objs k).closed then st else endSession st k

/-- One tick of the inactivity watchdog of object `k` at time `now`
(config.go:339-356): if more than `inactivityTimeout` seconds passed since
the last activity and the session is not closed, it runs the session-end
path. -/
def monitorTick (st : SMState) (k : Nat) (now : Nat) : SMState :=
  let o := objAt st.objs k
  if now - o.last > inactivityTimeout ∧ o.closed = false then endSession st k
  else st

/-- The observable events of the session subsystem. -/
inductive MEvent where
  | spawn (id : String) (terminalOk : Bool) (now : Nat)
  | closeReq (id : String)
  | closeAll
  | write (id : String) (now : Nat)
  | resize (id : String) (now : Nat)
  | readData (k : Nat) (now : Nat)
  | readErr (k : Nat)
  | tick (k : Nat) (now : Nat)
deriving Repr, DecidableEq

def step (st : SMState) : MEvent → SMState
  | .spawn id ok now => (SpawnSession st id ok now).1
  | .closeReq id => (CloseSession st id).1
  | .closeAll => CloseAllSessions st
  | .write id now => (touchActivity st id now).1
  | .resize id now => (touchActivity st id now).1
  | .readData k now => readerData st k now
  | .readErr k => readerErr st k
  | .tick k now => monitorTick st k now

def run (st : SMState) : List MEvent → SMState
  | [] => st
  | e :: es => run (step st e) es

inductive Reachable : SMState → Prop where
  | init : Reachable SMState.init
  | step (st : SMState) (e : MEvent) : Reachable st → Reachable (step st e)

/-- Number of exit notifications emitted for session object `k`. -/
def exitsFor (st : SMState) (k : Nat) : Nat :=
  st.exits.countP (fun p => p.1 = k)

/-! ### Registry and object-list lemmas -/

theorem objAt_ge (l : List SessionObj) (k : Nat) (h : l.length ≤ k) :
    objAt l k = ⟨"", true, 0⟩ := by
  induction l generalizing k with
  | nil => cases k <;> rfl
  | cons o rest ih =>
      cases k with
      | zero => simp at h
      | succ n => exact ih n (by simpa using h)

theorem lt_length_of_objAt_not_closed (l : List SessionObj) (k : Nat)
    (h : (objAt l k).closed = false) : k < l.length := by
  by_contra hk
  rw [objAt_ge l k (by omega)] at h
  simp at h

theorem objAt_append_lt (l l2 : List SessionObj) (k : Nat) (h : k < l.length) :
    objAt (l ++ l2) k = objAt l k := by
  induction l generalizing k with
  | nil => simp at h
  | cons o rest ih =>
      cases k with
      | zero => rfl
      | succ n => exact ih n (by simpa using h)

theorem objAt_append_self (l : List SessionObj) (o : SessionObj) :
    objAt (l ++ [o]) l.length = o := by
  induction l with
  | nil => rfl
  | cons hd tl ih => simpa using ih

theorem modifyObj_length (f : SessionObj → SessionObj) (l : List SessionObj)
    (k : Nat) : (modifyObj f l k).length = l.length := by
  induction l generalizing k with
  | nil => rfl
  | cons o rest ih => cases k <;> simp [modifyObj, ih]

theorem objAt_modifyObj (f : SessionObj → SessionObj) (l : List SessionObj)
    (j k : Nat) :
    objAt (modifyObj f l j) k =
      if k = j ∧ j < l.length then f (objAt l j) else objAt l k := by
  induction l generalizing j k with
  | nil => simp [modifyObj, objAt_ge]
  | cons o rest ih =>
      cases j with
      | zero =>
          cases k with
          | zero => simp [modifyObj, objAt]
          | succ n => simp [modifyObj, objAt]
      | succ m =>
          cases k with
          | zero => simp [modifyObj, objAt]
          | succ n =>
              simp only [modifyObj, objAt, ih, List.length_cons]
              by_cases h : n = m <;> simp [h]

theorem regLookup_eq_none (reg : List (String × Nat)) (id : String) :
    regLookup reg id = none ↔ ∀ e ∈ reg, e.1 ≠ id := by
  induction reg with
  | nil => simp [regLookup]
  | cons e rest ih =>
      by_cases h : e.1 = id <;> simp [regLookup, h, ih]

theorem regLookup_mem (id : String) (k : Nat) :
    ∀ reg : List (String × Nat), regLookup reg id = some k → (id, k) ∈ reg
  | [], h => by simp [regLookup] at h
  | e :: rest, h => by
      by_cases he : e.1 = id
      · rw [regLookup, if_pos he] at h
        obtain ⟨a, b⟩ := e
        obtain rfl : a = id := he
        obtain rfl : b = k := by simpa using h
        exact List.mem_cons_self _ _
      · rw [regLookup, if_neg he] at h
        exact List.mem_cons_of_mem _ (regLookup_mem id k rest h)

theorem mem_regDelete (reg : List (String × Nat)) (id : String)
    (e : String × Nat) : e ∈ regDelete reg id ↔ e ∈ reg ∧ e.1 ≠ id := by
  induction reg with
  | nil => simp [regDelete]
  | cons hd rest ih =>
      by_cases h : hd.1 = id
      · simp only [regDelete, if_pos h, ih, List.mem_cons]
        constructor
        · rintro ⟨h1, h2⟩
          exact ⟨Or.inr h1, h2⟩
        · rintro ⟨h1 | h1, h2⟩
          · subst h1; exact absurd h h2
          · exact ⟨h1, h2⟩
      · simp only [regDelete, if_neg h, List.mem_cons, ih]
        constructor
        · rintro (rfl | ⟨h1, h2⟩)
          · exact ⟨Or.inl rfl, h⟩
          · exact ⟨Or.inr h1, h2⟩
        · rintro ⟨rfl | h1, h2⟩
          · exact Or.inl rfl
          · exact Or.inr ⟨h1, h2⟩

theorem regDelete_pairwise (reg : List (String × Nat)) (id : String)
    (h : reg.Pairwise (fun a b => a.1 ≠ b.1)) :
    (regDelete reg id).Pairwise (fun a b => a.1 ≠ b.1) := by
  induction reg with
  | nil => simp [regDelete]
  | cons hd rest ih =>
      rw [List.pairwise_cons] at h
      by_cases he : hd.1 = id
      · simp only [regDelete, if_pos he]
        exact ih h.2
      · simp only [regDelete, if_neg he]
        rw [List.pairwise_cons]
        refine ⟨fun e hmem => h.1 e ((mem_regDelete rest id e).mp hmem).1, ih h.2⟩

theorem regDelete_eq_self (id : String) :
    ∀ reg : List (String × Nat), (∀ e ∈ reg, e.1 ≠ id) → regDelete reg id = reg
  | [], _ => rfl
  | e :: rest, h => by
      rw [regDelete, if_neg (h e (List.mem_cons_self e rest)),
        regDelete_eq_self id rest (fun x hx => h x (List.mem_cons_of_mem _ hx))]

theorem regDelete_length (id : String) (k : Nat) :
    ∀ reg : List (String × Nat), (id, k) ∈ reg →
      reg.Pairwise (fun a b => a.1 ≠ b.1) →
      (regDelete reg id).length + 1 = reg.length
  | [], hmem, _ => by simp at hmem
  | hd :: rest, hmem, hnd => by
      rw [List.pairwise_cons] at hnd
      by_cases he : hd.1 = id
      · rw [regDelete, if_pos he,
          regDelete_eq_self id rest (fun e hmemr => by
            have h2 := hnd.1 e hmemr
            rw [he] at h2
            exact fun hh => h2 hh.symm)]
        simp
      · have hmem2 : (id, k) ∈ rest := by
          rcases List.mem_cons.mp hmem with h1 | h1
          · exfalso; rw [← h1] at he; simp at he
          · exact h1
        have hrec := regDelete_length id k rest hmem2 hnd.2
        rw [regDelete, if_neg he]
        simp only [List.length_cons]
        omega

theorem key_unique (id : String) (b c : Nat) :
    ∀ reg : List (String × Nat), reg.Pairwise (fun a b => a.1 ≠ b.1) →
      (id, b) ∈ reg → (id, c) ∈ reg → b = c
  | [], _, hb, _ => by simp at hb
  | hd :: rest, hnd, hb, hc => by
      rw [List.pairwise_cons] at hnd
      rcases List.mem_cons.mp hb with h1 | h1 <;>
        rcases List.mem_cons.mp hc with h2 | h2
      · injection h1.trans h2.symm with h3 h4
      · exfalso
        exact hnd.1 _ h2 (by rw [← h1])
      · exfalso
        exact hnd.1 _ h1 (by rw [← h2])
      · exact key_unique id b c rest hnd.2 h1 h2

theorem closeRegistered_length (reg : List (String × Nat))
    (objs : List SessionObj) : (closeRegistered reg objs).length = objs.length := by
  induction reg generalizing objs with
  | nil => rfl
  | cons e rest ih => simp [closeRegistered, ih, modifyObj_length]

theorem objAt_closeRegistered (reg : List (String × Nat))
    (objs : List SessionObj) (k : Nat) :
    objAt (closeRegistered reg objs) k = objAt objs k ∨
      objAt (closeRegistered reg objs) k = closeObj (objAt objs k) := by
  induction reg generalizing objs with
  | nil => exact Or.inl rfl
  | cons e rest ih =>
      rcases ih (modifyObj closeObj objs e.2) with h | h <;>
        rw [closeRegistered, h, objAt_modifyObj] <;>
        by_cases hc : k = e.2 ∧ e.2 < objs.length <;> simp [hc, closeObj]

theorem objAt_closeRegistered_mem (e : String × Nat) :
    ∀ (reg : List (String × Nat)) (objs : List SessionObj), e ∈ reg →
      e.2 < objs.length →
      (objAt (closeRegistered reg objs) e.2).closed = true
  | [], _, he, _ => by simp at he
  | hd :: rest, objs, he, hk => by
      rcases List.mem_cons.mp he with h1 | h1
      · have h2 : hd.2 = e.2 := by rw [h1]
        rcases objAt_closeRegistered rest (modifyObj closeObj objs hd.2) e.2 with h | h <;>
          rw [closeRegistered, h, objAt_modifyObj] <;>
          simp [h2, hk, closeObj]
      · rw [closeRegistered]
        exact objAt_closeRegistered_mem e rest (modifyObj closeObj objs hd.2) h1
          (by rw [modifyObj_length]; exact hk)

theorem countFor_append (l1 l2 : List (Nat × String)) (k : Nat) :
    (l1 ++ l2).countP (fun p => p.1 = k) =
      l1.countP (fun p => p.1 = k) + l2.countP (fun p => p.1 = k) :=
  List.countP_append _ _ _

theorem countFor_single (k j : Nat) (s : String) :
    ([(k, s)] : List (Nat × String)).countP (fun p => p.1 = j) =
      if k = j then 1 else 0 := by
  by_cases h : k = j <;> simp [List.countP_cons, h]

theorem countFor_eq_zero (l : List (Nat × String)) (k : Nat)
    (h : ∀ p ∈ l, p.1 ≠ k) : l.countP (fun p => p.1 = k) = 0 := by
  rw [List.countP_eq_zero]
  intro p hp
  simpa using h p hp

theorem countFor_pos (l : List (Nat × String)) (k : Nat)
    (h : 1 ≤ l.countP (fun p => p.1 = k)) : ∃ p ∈ l, p.1 = k := by
  have hpos : 0 < l.countP (fun p => decide (p.1 = k)) := by omega
  have := List.countP_pos_iff.mp hpos
  simpa using this

/-! ### The session-manager invariant -/

/-- Safety invariant of the sequential session-manager model: the atomic
counter equals the registry size; registry keys are distinct; registered
entries point to in-range, open objects carrying the same id; every open
object is registered under its id; the registry never exceeds
`maxSessions`; exit notifications reference existing objects, at most one
per object, and only closed objects. -/
structure Inv (st : SMState) : Prop where
  count_eq : st.sessionCount = st.reg.length
  keys_nodup : st.reg.Pairwise (fun a b => a.1 ≠ b.1)
  reg_valid : ∀ e ∈ st.reg, e.2 < st.objs.length ∧
      (objAt st.objs e.2).id = e.1 ∧ (objAt st.objs e.2).closed = false
  open_reg : ∀ k, k < st.objs.length → (objAt st.objs k).closed = false →
      ((objAt st.objs k).id, k) ∈ st.reg
  count_le : st.reg.length ≤ maxSessions
  exits_lt : ∀ p ∈ st.exits, p.1 < st.objs.length
  exits_closed : ∀ k, 1 ≤ exitsFor st k → (objAt st.objs k).closed = true
  exits_once : ∀ k, exitsFor st k ≤ 1

theorem inv_init : Inv SMState.init := by
  refine ⟨rfl, ?_, ?_, ?_, ?_, ?_, ?_, ?_⟩ <;>
    simp [SMState.init, maxSessions, exitsFor, objAt]

theorem inv_spawn (st : SMState) (id : String) (ok : Bool) (now : Nat)
    (h : Inv st) : Inv (SpawnSession st id ok now).1 := by
  unfold SpawnSession
  by_cases h1 : st.sessionCount ≥ (maxSessions : Int)
  · simpa [h1] using h
  rw [if_neg h1]
  by_cases h2 : (regLookup st.reg id).isSome
  · simpa [h2] using h
  rw [if_neg h2]
  by_cases h3 : ok = false
  · simpa [h3] using h
  rw [if_neg h3]
  have hid : ∀ e ∈ st.reg, e.1 ≠ id := by
    refine (regLookup_eq_none st.reg id).mp ?_
    cases hh : regLookup st.reg id with
    | none => rfl
    | some v => rw [hh] at h2; simp at h2
  have hcount : st.sessionCount = (st.reg.length : Int) := h.count_eq
  refine ⟨?_, ?_, ?_, ?_, ?_, ?_, ?_, ?_⟩
  · simp only [List.length_cons]
    push_cast
    omega
  · exact List.pairwise_cons.mpr ⟨fun e he => fun hh => hid e he hh.symm, h.keys_nodup⟩
  · intro e he
    rcases List.mem_cons.mp he with rfl | he2
    · refine ⟨by simp, ?_, ?_⟩ <;> simp [objAt_append_self]
    · obtain ⟨hlt, hid2, hop⟩ := h.reg_valid e he2
      exact ⟨by simp; omega, by rwa [objAt_append_lt _ _ _ hlt],
        by rwa [objAt_append_lt _ _ _ hlt]⟩
  · intro k hk hop
    simp only [List.length_append, List.length_singleton] at hk
    by_cases hlt : k < st.objs.length
    · rw [objAt_append_lt _ _ _ hlt] at hop ⊢
      exact List.mem_cons_of_mem _ (h.open_reg k hlt hop)
    · have hk2 : k = st.objs.length := by omega
      subst hk2
      rw [objAt_append_self]
      exact List.mem_cons_self _ _
  · simp only [List.length_cons]
    have : (st.reg.length : Int) < maxSessions := by omega
    have : st.reg.length < maxSessions := by exact_mod_cast this
    omega
  · intro p hp
    have := h.exits_lt p hp
    simp
    omega
  · intro k hcnt
    have hold := h.exits_closed k hcnt
    by_cases hlt : k < st.objs.length
    · rwa [objAt_append_lt _ _ _ hlt]
    · obtain ⟨p, hpmem, hpk⟩ := countFor_pos st.exits k hcnt
      have := h.exits_lt p hpmem
      omega
  · exact h.exits_once

theorem inv_closeSession (st : SMState) (id : String) (h : Inv st) :
    Inv (CloseSession st id).1 := by
  unfold CloseSession
  cases hl : regLookup st.reg id with
  | none => exact h
  | some k =>
      have hmem : (id, k) ∈ st.reg := regLookup_mem id k st.reg hl
      obtain ⟨hk, hkid, hkop⟩ := h.reg_valid (id, k) hmem
      have hdel := regDelete_length id k st.reg hmem h.keys_nodup
      refine ⟨?_, regDelete_pairwise st.reg id h.keys_nodup, ?_, ?_, ?_, ?_, ?_, ?_⟩
      · have hcount : st.sessionCount = (st.reg.length : Int) := h.count_eq
        simp only
        omega
      · intro e he
        obtain ⟨he2, hne⟩ := (mem_regDelete st.reg id e).mp he
        obtain ⟨hlt, hid2, hop⟩ := h.reg_valid e he2
        have hek : ¬(e.2 = k ∧ k < st.objs.length) := by
          rintro ⟨hh, -⟩
          apply hne
          rw [← hid2, hh, hkid]
        refine ⟨by rw [modifyObj_length]; exact hlt, ?_, ?_⟩ <;>
          rw [objAt_modifyObj, if_neg hek] <;> assumption
      · intro j hj hop
        rw [modifyObj_length] at hj
        by_cases hjk : j = k ∧ k < st.objs.length
        · rw [objAt_modifyObj, if_pos hjk] at hop
          simp [closeObj] at hop
        · rw [objAt_modifyObj, if_neg hjk] at hop
          rw [objAt_modifyObj, if_neg hjk]
          have hmem2 := h.open_reg j hj hop
          refine (mem_regDelete st.reg id _).mpr ⟨hmem2, ?_⟩
          intro hh
          have hj2 : (id, j) ∈ st.reg := by rw [← hh]; exact hmem2
          have hjeq := key_unique id j k st.reg h.keys_nodup hj2 hmem
          exact hjk ⟨hjeq, hk⟩
      · have h10 := h.count_le
        simp only
        omega
      · intro p hp
        rw [modifyObj_length]
        exact h.exits_lt p hp
      · intro j hcnt
        have hold := h.exits_closed j hcnt
        by_cases hjk : j = k ∧ k < st.objs.length
        · rw [objAt_modifyObj, if_pos hjk]
          simp [closeObj]
        · rw [objAt_modifyObj, if_neg hjk]
          exact hold
      · exact h.exits_once

theorem inv_closeAll (st : SMState) (h : Inv st) : Inv (CloseAllSessions st) := by
  unfold CloseAllSessions
  refine ⟨?_, by simp, by simp, ?_, by simp [maxSessions], ?_, ?_, ?_⟩
  · have hcount : st.sessionCount = (st.reg.length : Int) := h.count_eq
    simp only [List.length_nil]
    push_cast
    omega
  · intro k hk hop
    rw [closeRegistered_length] at hk
    rcases objAt_closeRegistered st.reg st.objs k with hc | hc
    · rw [hc] at hop
      have hmem := h.open_reg k hk hop
      have h2 : (objAt (closeRegistered st.reg st.objs) k).closed = true :=
        objAt_closeRegistered_mem ((objAt st.objs k).id, k) st.reg st.objs hmem hk
      rw [hc] at h2
      rw [hop] at h2
      exact Bool.noConfusion h2
    · rw [hc] at hop
      simp [closeObj] at hop
  · intro p hp
    rw [closeRegistered_length]
    exact h.exits_lt p hp
  · intro k hcnt
    have hold := h.exits_closed k hcnt
    rcases objAt_closeRegistered st.reg st.objs k with hc | hc <;>
      simp [hc, closeObj, hold]
  · exact h.exits_once

/-- Modifications that touch neither the id nor the closed flag (the
last-activity refreshes) preserve the invariant. -/
theorem inv_modify_neutral (st : SMState) (k : Nat)
    (f : SessionObj → SessionObj) (hf : ∀ o, (f o).id = o.id ∧ (f o).closed = o.closed)
    (h : Inv st) : Inv { st with objs := modifyObj f st.objs k } := by
  have hid : ∀ j, (objAt (modifyObj f st.objs k) j).id = (objAt st.objs j).id := by
    intro j
    rw [objAt_modifyObj]
    by_cases hjk : j = k ∧ k < st.objs.length
    · simp [hjk, (hf _).1, hjk.1]
    · simp [hjk]
  have hcl : ∀ j, (objAt (modifyObj f st.objs k) j).closed = (objAt st.objs j).closed := by
    intro j
    rw [objAt_modifyObj]
    by_cases hjk : j = k ∧ k < st.objs.length
    · simp [hjk, (hf _).2, hjk.1]
    · simp [hjk]
  refine ⟨h.count_eq, h.keys_nodup, ?_, ?_, h.count_le, ?_, ?_, h.exits_once⟩
  · intro e he
    obtain ⟨hlt, hid2, hop⟩ := h.reg_valid e he
    rw [modifyObj_length]
    exact ⟨hlt, by rw [hid]; exact hid2, by rw [hcl]; exact hop⟩
  · intro j hj hop
    rw [modifyObj_length] at hj
    rw [hcl] at hop
    rw [hid]
    exact h.open_reg j hj hop
  · intro p hp
    rw [modifyObj_length]
    exact h.exits_lt p hp
  · intro j hcnt
    rw [hcl]
    exact h.exits_closed j hcnt

theorem inv_touch (st : SMState) (id : String) (now : Nat) (h : Inv st) :
    Inv (touchActivity st id now).1 := by
  unfold touchActivity
  cases hl : regLookup st.reg id with
  | none => exact h
  | some k =>
      cases hc : (objAt st.objs k).closed with
      | true => simpa [hc] using h
      | false => simpa [hc] using
          inv_modify_neutral st k (fun o => { o with last := now }) (fun _ => ⟨rfl, rfl⟩) h

theorem inv_readData (st : SMState) (k : Nat) (now : Nat) (h : Inv st) :
    Inv (readerData st k now) :=
  inv_modify_neutral st k (fun o => { o with last := now }) (fun _ => ⟨rfl, rfl⟩) h

theorem inv_endSession (st : SMState) (k : Nat)
    (hcl : (objAt st.objs k).closed = false) (h : Inv st) :
    Inv (endSession st k) := by
  have hk : k < st.objs.length := lt_length_of_objAt_not_closed st.objs k hcl
  have hmem : ((objAt st.objs k).id, k) ∈ st.reg := h.open_reg k hk hcl
  have hdel := regDelete_length (objAt st.objs k).id k st.reg hmem h.keys_nodup
  have hcnt0 : exitsFor st k = 0 := by
    by_contra hh
    have : 1 ≤ exitsFor st k := by omega
    rw [h.exits_closed k this] at hcl
    cases hcl
  refine ⟨?_, regDelete_pairwise st.reg _ h.keys_nodup, ?_, ?_, ?_, ?_, ?_, ?_⟩
  · have hcount : st.sessionCount = (st.reg.length : Int) := h.count_eq
    simp only [endSession]
    omega
  · intro e he
    obtain ⟨he2, hne⟩ := (mem_regDelete st.reg _ e).mp he
    obtain ⟨hlt, hid2, hop⟩ := h.reg_valid e he2
    have hek : ¬(e.2 = k ∧ k < st.objs.length) := by
      rintro ⟨hh, -⟩
      apply hne
      rw [← hid2, hh]
    refine ⟨?_, ?_, ?_⟩
    · simp only [endSession, modifyObj_length]
      exact hlt
    · simp only [endSession]
      rw [objAt_modifyObj, if_neg hek]
      exact hid2
    · simp only [endSession]
      rw [objAt_modifyObj, if_neg hek]
      exact hop
  · intro j hj hop
    simp only [endSession, modifyObj_length] at hj
    simp only [endSession] at hop ⊢
    by_cases hjk : j = k ∧ k < st.objs.length
    · rw [objAt_modifyObj, if_pos hjk] at hop
      simp [closeObj] at hop
    · rw [objAt_modifyObj, if_neg hjk] at hop
      rw [objAt_modifyObj, if_neg hjk]
      have hmem2 := h.open_reg j hj hop
      refine (mem_regDelete st.reg _ _).mpr ⟨hmem2, ?_⟩
      intro hh
      have hj2 : ((objAt st.objs k).id, j) ∈ st.reg := by rw [← hh]; exact hmem2
      have hjeq := key_unique (objAt st.objs k).id j k st.reg h.keys_nodup hj2 hmem
      exact hjk ⟨hjeq, hk⟩
  · have h10 := h.count_le
    simp only [endSession]
    omega
  · intro p hp
    simp only [endSession, modifyObj_length]
    simp only [endSession] at hp
    rcases List.mem_append.mp hp with hp1 | hp1
    · exact h.exits_lt p hp1
    · have hp2 : p = (k, (objAt st.objs k).id) := by simpa using hp1
      subst hp2
      exact hk
  · intro j hcnt
    simp only [endSession]
    by_cases hjk : j = k ∧ k < st.objs.length
    · rw [objAt_modifyObj, if_pos hjk]
      simp [closeObj]
    · have hkj : ¬ k = j := fun hh => hjk ⟨hh.symm, hk⟩
      rw [objAt_modifyObj, if_neg hjk]
      have hs : exitsFor (endSession st k) j = exitsFor st j := by
        simp [exitsFor, endSession, List.countP_append, List.countP_cons, hkj]
      rw [hs] at hcnt
      exact h.exits_closed j hcnt
  · intro j
    by_cases hjk : j = k
    · subst hjk
      have hs : exitsFor (endSession st j) j = exitsFor st j + 1 := by
        simp [exitsFor, endSession, List.countP_append, List.countP_cons]
      rw [hs, hcnt0]
    · have hkj : ¬ k = j := fun hh => hjk hh.symm
      have hs : exitsFor (endSession st k) j = exitsFor st j := by
        simp [exitsFor, endSession, List.countP_append, List.countP_cons, hkj]
      rw [hs]
      exact h.exits_once j

theorem inv_readerErr (st : SMState) (k : Nat) (h : Inv st) :
    Inv (readerErr st k) := by
  unfold readerErr
  cases hc : (objAt st.objs k).closed with
  | true => simpa using h
  | false => simpa using inv_endSession st k hc h

theorem inv_monitorTick (st : SMState) (k : Nat) (now : Nat) (h : Inv st) :
    Inv (monitorTick st k now) := by
  simp only [monitorTick]
  split
  next hg => exact inv_endSession st k hg.2 h
  next hg => exact h

theorem inv_step (st : SMState) (e : MEvent) (h : Inv st) : Inv (step st e) := by
  cases e with
  | spawn id ok now => exact inv_spawn st id ok now h
  | closeReq id => exact inv_closeSession st id h
  | closeAll => exact inv_closeAll st h
  | write id now => exact inv_touch st id now h
  | resize id now => exact inv_touch st id now h
  | readData k now => exact inv_readData st k now h
  | readErr k => exact inv_readerErr st k h
  | tick k now => exact inv_monitorTick st k now h

theorem reachable_inv (st : SMState) (h : Reachable st) : Inv st := by
  induction h with
  | init => exact inv_init
  | step st e _ ih => exact inv_step st e ih

theorem regLookup_delete_none (reg : List (String × Nat)) (cid id : String)
    (h : regLookup reg id = none) : regLookup (regDelete reg cid) id = none := by
  rw [regLookup_eq_none] at h ⊢
  intro e he
  exact h e ((mem_regDelete reg cid e).mp he).1

theorem regLookup_delete_self (reg : List (String × Nat)) (id : String) :
    regLookup (regDelete reg id) id = none := by
  rw [regLookup_eq_none]
  intro e he
  exact ((mem_regDelete reg id e).mp he).2

/-! ### Backoff arithmetic -/

theorem bumpDelay_formula (i : Nat) :
    bumpDelay (min (5 * 2 ^ i) 60) = min (5 * 2 ^ (i + 1)) 60 := by
  rw [pow_succ]
  generalize (2 : Nat) ^ i = t
  unfold bumpDelay maxReconnectDelay
  split <;> omega

theorem runTrace_dialFails (j : Nat) : ∀ n : Nat,
    runTrace (min (5 * 2 ^ j) 60) (List.replicate n ConnEvent.dialFail)
      = (min (5 * 2 ^ (j + n)) 60,
         (List.range n).map (fun i => min (5 * 2 ^ (j + i)) 60))
  | 0 => by simp [runTrace]
  | n + 1 => by
      rw [List.replicate_succ, runTrace]
      simp only [runIter, bumpDelay_formula]
      rw [runTrace_dialFails (j + 1) n]
      refine Prod.ext ?_ ?_
      · show min (5 * 2 ^ (j + 1 + n)) 60 = min (5 * 2 ^ (j + (n + 1))) 60
        have he : j + 1 + n = j + (n + 1) := by omega
        rw [he]
      · have htail : (List.range n).map (fun i => min (5 * 2 ^ (j + 1 + i)) 60)
            = (List.range n).map
                ((fun i => min (5 * 2 ^ (j + i)) 60) ∘ Nat.succ) := by
          refine List.map_congr_left fun i _ => ?_
          show min (5 * 2 ^ (j + 1 + i)) 60 = min (5 * 2 ^ (j + (i + 1))) 60
          have he : j + 1 + i = j + (i + 1) := by omega
          rw [he]
        show [min (5 * 2 ^ j) 60] ++
            (List.range n).map (fun i => min (5 * 2 ^ (j + 1 + i)) 60)
          = (List.range (n + 1)).map (fun i => min (5 * 2 ^ (j + i)) 60)
        rw [List.range_succ_eq_map, List.map_cons, List.map_map,
          List.singleton_append, htail]
        simp

theorem runTrace_reset (evs : List ConnEvent) : ∀ d : Nat,
    (runTrace d (evs ++ [ConnEvent.sessionEnd])).1 = minReconnectDelay := by
  induction evs with
  | nil => intro d; rfl
  | cons e rest ih => intro d; exact ih (runIter d e).1

/-! ### Exit-trace monotonicity -/

theorem spawn_exits (st : SMState) (id : String) (ok : Bool) (now : Nat) :
    (SpawnSession st id ok now).1.exits = st.exits := by
  unfold SpawnSession
  split_ifs <;> rfl

theorem closeSession_exits (st : SMState) (id : String) :
    (CloseSession st id).1.exits = st.exits := by
  unfold CloseSession
  cases regLookup st.reg id <;> rfl

theorem touch_exits (st : SMState) (id : String) (now : Nat) :
    (touchActivity st id now).1.exits = st.exits := by
  unfold touchActivity
  split
  · rfl
  · split <;> rfl

theorem step_exits_extend (st : SMState) (e : MEvent) :
    ∃ l, (step st e).exits = st.exits ++ l := by
  cases e with
  | spawn id ok now => exact ⟨[], by rw [step, spawn_exits, List.append_nil]⟩
  | closeReq id => exact ⟨[], by rw [step, closeSession_exits, List.append_nil]⟩
  | closeAll => exact ⟨[], by rw [step, List.append_nil]; rfl⟩
  | write id now => exact ⟨[], by rw [step, touch_exits, List.append_nil]⟩
  | resize id now => exact ⟨[], by rw [step, touch_exits, List.append_nil]⟩
  | readData k now => exact ⟨[], by rw [step, List.append_nil]; rfl⟩
  | readErr k =>
      rw [step, readerErr]
      cases hc : (objAt st.objs k).closed with
      | true => exact ⟨[], by simp⟩
      | false => exact ⟨[(k, (objAt st.objs k).id)], by simp [endSession]⟩
  | tick k now =>
      rw [step, monitorTick]
      split
      · exact ⟨[(k, (objAt st.objs k).id)], by simp [endSession]⟩
      · exact ⟨[], by simp⟩

theorem exitsFor_le_step (st : SMState) (e : MEvent) (k : Nat) :
    exitsFor st k ≤ exitsFor (step st e) k := by
  obtain ⟨l, hl⟩ := step_exits_extend st e
  simp only [exitsFor, hl, List.countP_append]
  omega

theorem exitsFor_le_run (k : Nat) : ∀ (evs : List MEvent) (st : SMState),
    exitsFor st k ≤ exitsFor (run st evs) k
  | [], _ => Nat.le_refl _
  | e :: es, st =>
      Nat.le_trans (exitsFor_le_step st e k) (exitsFor_le_run k es (step st e))

theorem reachable_run (st : SMState) (h : Reachable st) :
    ∀ evs : List MEvent, Reachable (run st evs) := by
  intro evs
  induction evs generalizing st with
  | nil => exact h
  | cons e es ih => exact ih (step st e) (Reachable.step st e h)

/-! ## Claim theorems -/

/-- C1 (code_bug evidence): the exec_cmd message struct `ExecCmdData`
(main.go:360-365) declares no timeout member, so decoding a request whose
wire payload carries `"timeout": 700` produces exactly the same value as
decoding the request without it — the wire timeout is silently dropped,
even though `Execute` (config.go:457) is written to read `cmd.Timeout` and
clamp it (`computeTimeout`: positive values capped at 600, non-positive
defaulted to 30). -/
theorem C1_timeout_field_dropped :
    ExecCmdData.unmarshal (Json.obj [("token", Json.str "t1"),
        ("command", Json.str "sleep"), ("args", Json.arr [Json.str "700"]),
        ("timeout", Json.num 700)])
      = some { Token := "t1", Username := "", Command := "sleep", Args := ["700"] } ∧
    ExecCmdData.unmarshal (Json.obj [("token", Json.str "t1"),
        ("command", Json.str "sleep"), ("args", Json.arr [Json.str "700"]),
        ("timeout", Json.num 700)])
      = ExecCmdData.unmarshal (Json.obj [("token", Json.str "t1"),
        ("command", Json.str "sleep"), ("args", Json.arr [Json.str "700"])]) ∧
    computeTimeout 700 = 600 ∧ computeTimeout 0 = 30 ∧ computeTimeout 599 = 599 :=
  ⟨rfl, rfl, rfl, rfl, rfl⟩

/-- C2: the live-session count never exceeds 10 in any reachable state;
with the counter at 10 every spawn fails with `ErrMaxSessions` and changes
nothing; after closing one live session, a spawn with a fresh id (whose
terminal allocation succeeds) is accepted. -/
theorem C2_session_cap (st : SMState) (h : Reachable st) :
    st.reg.length ≤ 10 ∧ st.sessionCount ≤ 10 ∧
    (∀ (id : String) (ok : Bool) (now : Nat), st.sessionCount = 10 →
      SpawnSession st id ok now = (st, SpawnResult.errMaxSessions)) ∧
    (∀ (cid id : String) (now : Nat), (regLookup st.reg cid).isSome = true →
      regLookup st.reg id = none →
      (SpawnSession (CloseSession st cid).1 id true now).2 = SpawnResult.ok) := by
  have inv := reachable_inv st h
  have hlen : st.reg.length ≤ 10 := inv.count_le
  have hcnt : st.sessionCount = (st.reg.length : Int) := inv.count_eq
  refine ⟨hlen, by omega, ?_, ?_⟩
  · intro id ok now h10
    unfold SpawnSession
    rw [if_pos (by rw [h10]; norm_num [maxSessions])]
  · intro cid id now hcid hid
    obtain ⟨k, hk⟩ := Option.isSome_iff_exists.mp hcid
    have hmem : (cid, k) ∈ st.reg := regLookup_mem cid k st.reg hk
    have hdel := regDelete_length cid k st.reg hmem inv.keys_nodup
    have hms : (maxSessions : Int) = 10 := by norm_num [maxSessions]
    have hclose : (CloseSession st cid).1 =
        { st with
          reg := regDelete st.reg cid,
          objs := modifyObj closeObj st.objs k,
          sessionCount := st.sessionCount - 1 } := by
      simp [CloseSession, hk]
    rw [hclose]
    unfold SpawnSession
    simp only
    rw [if_neg (by rw [hms]; omega)]
    rw [regLookup_delete_none st.reg cid id hid]
    simp

/-- C3: starting from the initial (or any post-success) delay, the delays
slept during a run of `n` consecutive dial failures are exactly
5, 10, 20, 40, 60, 60, … (the i-th is `min (5·2^i) 60`), each at most 60;
and any iteration that follows a successful connect resets the delay to
5 and sleeps 5 after the session ends. -/
theorem C3_reconnect_backoff :
    (∀ n : Nat, (runTrace minReconnectDelay (List.replicate n ConnEvent.dialFail)).2
        = (List.range n).map (fun i => min (5 * 2 ^ i) 60)) ∧
    (∀ i : Nat, min (5 * 2 ^ i) 60 ≤ 60) ∧
    (∀ (d : Nat) (evs : List ConnEvent),
      (runTrace d (evs ++ [ConnEvent.sessionEnd])).1 = minReconnectDelay) ∧
    (∀ d : Nat, runIter d ConnEvent.sessionEnd
        = (minReconnectDelay, [minReconnectDelay])) := by
  refine ⟨?_, fun i => min_le_right _ _, fun d evs => runTrace_reset evs d,
    fun d => rfl⟩
  intro n
  have h5 : minReconnectDelay = min (5 * 2 ^ 0) 60 := by decide
  rw [h5, runTrace_dialFails 0 n]
  simp

/-- C4: completion mapping of `executeCommand`: a deadline-exceeded run is
reported as a `cmd_error` with code SysErr ("command timeout"), never a
result; a non-zero exit whose encoded output fits is reported as a
`cmd_result` carrying the real exit code; a launch-level failure is a
SysErr `cmd_error`; and whenever the combined base64-encoded stdout and
stderr exceed 65000 bytes the result is discarded in favour of a
RespTooBig `cmd_error`. -/
theorem C4_completion_mapping :
    (∀ (token : String) (out err : List Nat),
      executeCommand token RunOutcome.deadline out err
        = CmdReply.error token CmdErrSysErr "command timeout") ∧
    (∀ (token : String) (c : Int) (out err : List Nat),
      (b64Encode out).length + (b64Encode err).length ≤ 65000 →
      executeCommand token (RunOutcome.exit c) out err
        = CmdReply.result token c (b64Encode out) (b64Encode err)) ∧
    (∀ (token msg : String) (out err : List Nat),
      executeCommand token (RunOutcome.failed msg) out err
        = CmdReply.error token CmdErrSysErr msg) ∧
    (∀ (token : String) (out err : List Nat),
      (b64Encode out).length + (b64Encode err).length > 65000 →
      executeCommand token RunOutcome.ok out err
        = CmdReply.error token CmdErrRespTooBig "stdout+stderr is too big") ∧
    (∀ (token : String) (c : Int) (out err : List Nat),
      (b64Encode out).length + (b64Encode err).length > 65000 →
      executeCommand token (RunOutcome.exit c) out err
        = CmdReply.error token CmdErrRespTooBig "stdout+stderr is too big") := by
  refine ⟨fun token out err => rfl, ?_, fun token msg out err => rfl, ?_, ?_⟩
  · intro token c out err hle
    simp only [executeCommand]
    rw [if_neg (by omega)]
  · intro token out err hgt
    simp only [executeCommand]
    rw [if_pos (by omega)]
  · intro token c out err hgt
    simp only [executeCommand]
    rw [if_pos (by omega)]

/-- C4 witness: concrete evaluations, including an output of 48752 bytes
whose base64 encoding (65004 chars) trips the RespTooBig guard. -/
theorem C4_completion_mapping_witness :
    executeCommand "t" (RunOutcome.exit 7) [104, 105] []
        = CmdReply.result "t" 7 (b64Encode [104, 105]) (b64Encode []) ∧
    executeCommand "t" RunOutcome.ok (List.replicate 48752 0) []
        = CmdReply.error "t" CmdErrRespTooBig "stdout+stderr is too big" ∧
    executeCommand "t2" (RunOutcome.exit 1) (List.replicate 48752 0) []
        = CmdReply.error "t2" CmdErrRespTooBig "stdout+stderr is too big" :=
  ⟨C4_completion_mapping.2.1 "t" 7 [104, 105] []
      (by simp only [b64Encode_length, List.length_cons, List.length_nil]; omega),
   C4_completion_mapping.2.2.2.1 "t" (List.replicate 48752 0) []
      (by simp only [b64Encode_length, List.length_replicate, List.length_nil]; omega),
   C4_completion_mapping.2.2.2.2 "t2" 1 (List.replicate 48752 0) []
      (by simp only [b64Encode_length, List.length_replicate, List.length_nil]; omega)⟩

/-- C5: with the five-permit semaphore fully held, a request that passes
identity and path validation is rejected at admission with code NoMem
("too many concurrent commands"); `Execute` is a total function of the
current occupancy — the `select` with `default` never waits. -/
theorem C5_saturation_rejects (env : ExecEnv) (inFlight : Nat)
    (cmd : ExecCmdData) (tf : Int)
    (hu : cmd.Username = "" ∨ (env.lookupUser cmd.Username).isSome = true)
    (hp : ∃ p, env.lookPath cmd.Command = some p ∧ p ≠ "")
    (hs : cmdRunningLimit ≤ inFlight) :
    Execute env inFlight cmd tf
      = ExecOutcome.rejected CmdErrNoMem "too many concurrent commands" := by
  obtain ⟨p, hp1, hp2⟩ := hp
  have hnl : ¬ inFlight < cmdRunningLimit := Nat.not_lt.mpr hs
  unfold Execute
  rcases hu with hu | hu
  · simp [hu, hp1, hp2, hnl]
  · obtain ⟨u, hu2⟩ := Option.isSome_iff_exists.mp hu
    by_cases he : cmd.Username = ""
    · simp [he, hp1, hp2, hnl]
    · simp [he, hu2, hp1, hp2, hnl]

/-- C5 witness: a saturated pool (5 slots held) rejects a valid request. -/
theorem C5_saturation_rejects_witness :
    Execute ⟨fun _ => none, fun _ => some "/bin/ls"⟩ 5
        { Token := "tok", Username := "", Command := "ls", Args := [] } 0
      = ExecOutcome.rejected CmdErrNoMem "too many concurrent commands" :=
  C5_saturation_rejects ⟨fun _ => none, fun _ => some "/bin/ls"⟩ 5
    { Token := "tok", Username := "", Command := "ls", Args := [] } 0
    (Or.inl rfl) ⟨"/bin/ls", rfl, by decide⟩ (by decide)

/-- C2 witness: spawn "a", close it, then a spawn with fresh id "b"
succeeds. -/
theorem C2_session_cap_witness :
    (SpawnSession
        (CloseSession (step SMState.init (MEvent.spawn "a" true 0)) "a").1
        "b" true 5).2 = SpawnResult.ok :=
  (C2_session_cap (step SMState.init (MEvent.spawn "a" true 0))
      (Reachable.step SMState.init (MEvent.spawn "a" true 0) Reachable.init)).2.2.2
    "a" "b" 5 (by decide) (by decide)

theorem exitsFor_endSession_self (st : SMState) (k : Nat) :
    exitsFor (endSession st k) k = exitsFor st k + 1 := by
  simp [exitsFor, endSession, List.countP_append, List.countP_cons]

/-- C6: in any reachable state, a watchdog tick for a live (not closed)
session with more than 600s of inactivity closes the session, removes its
id from the registry, and emits exactly one exit notification for it —
and no later event (including the reader task's subsequent read-error
exit) ever emits a second one. -/
theorem C6_inactivity_watchdog (st : SMState) (h : Reachable st) (k now : Nat)
    (hcl : (objAt st.objs k).closed = false)
    (hin : now - (objAt st.objs k).last > inactivityTimeout) :
    regLookup (monitorTick st k now).reg (objAt st.objs k).id = none ∧
    (objAt (monitorTick st k now).objs k).closed = true ∧
    exitsFor (monitorTick st k now) k = 1 ∧
    (∀ evs : List MEvent, exitsFor (run (monitorTick st k now) evs) k = 1) := by
  have inv := reachable_inv st h
  have hk : k < st.objs.length := lt_length_of_objAt_not_closed st.objs k hcl
  have hcnt0 : exitsFor st k = 0 := by
    by_contra hh
    have h1 : 1 ≤ exitsFor st k := by omega
    rw [inv.exits_closed k h1] at hcl
    cases hcl
  have hmt : monitorTick st k now = endSession st k := by
    show (if now - (objAt st.objs k).last > inactivityTimeout ∧
        (objAt st.objs k).closed = false then endSession st k else st)
      = endSession st k
    rw [if_pos ⟨hin, hcl⟩]
  have hone : exitsFor (monitorTick st k now) k = 1 := by
    rw [hmt, exitsFor_endSession_self, hcnt0]
  refine ⟨?_, ?_, hone, ?_⟩
  · rw [hmt]
    exact regLookup_delete_self st.reg _
  · rw [hmt]
    show (objAt (modifyObj closeObj st.objs k) k).closed = true
    rw [objAt_modifyObj, if_pos ⟨rfl, hk⟩]
    rfl
  · intro evs
    have hreach : Reachable (monitorTick st k now) :=
      Reachable.step st (MEvent.tick k now) h
    have h1 := (reachable_inv _ (reachable_run _ hreach evs)).exits_once k
    have h2 := exitsFor_le_run k evs (monitorTick st k now)
    omega

/-- C6 witness: one session spawned at time 0; the watchdog tick at time
1000 fires and emits the single exit notification. -/
theorem C6_inactivity_watchdog_witness :
    exitsFor (monitorTick (step SMState.init (MEvent.spawn "a" true 0)) 0 1000) 0
      = 1 :=
  (C6_inactivity_watchdog (step SMState.init (MEvent.spawn "a" true 0))
      (Reachable.step SMState.init (MEvent.spawn "a" true 0) Reachable.init)
      0 1000 (by decide) (by decide)).2.2.1

/-- C7 counterexample: a spawn request whose identity resolves (user
alice, home /home/alice) still starts the pty with no OS-level credential
substitution (`SysProcAttr.Credential` is never set) and runs the agent's
own `$SHELL` (/bin/bash here), not a per-identity login shell. -/
theorem C7_counterexample :
    (NewTerminal "/bin/bash" ["PATH=/usr/bin"]
        (fun u => if u = "alice" then some ⟨"1000", "1000", "alice", "/home/alice"⟩
          else none) "alice").cred = none ∧
    (NewTerminal "/bin/bash" ["PATH=/usr/bin"]
        (fun u => if u = "alice" then some ⟨"1000", "1000", "alice", "/home/alice"⟩
          else none) "alice").path = "/bin/bash" := by
  constructor <;> decide

/-- C7 amended: with a supplied identity that resolves and has a nonempty
home directory, the pty runs the agent's `$SHELL` (default /bin/sh) as a
login shell with the identity's home as working directory and
HOME/USER/LOGNAME overridden; identity-resolution failure silently falls
back to the default shell (only TERM set); and no branch ever performs
credential substitution. -/
theorem C7_identity_spawn (envShell : String) (environ : List String)
    (lookup : String → Option GoUser) (username : String) (u : GoUser)
    (hn : username ≠ "") (hl : lookup username = some u) (hh : u.HomeDir ≠ "") :
    NewTerminal envShell environ lookup username =
      { path := if envShell = "" then "/bin/sh" else envShell,
        args := ["-l"],
        env := environ ++ ["HOME=" ++ u.HomeDir, "USER=" ++ username,
          "LOGNAME=" ++ username, "TERM=xterm-256color"],
        dir := u.HomeDir,
        cred := none } ∧
    (∀ lookup2 : String → Option GoUser, lookup2 username = none →
      NewTerminal envShell environ lookup2 username =
        { path := if envShell = "" then "/bin/sh" else envShell,
          args := ["-l"], env := ["TERM=xterm-256color"], dir := "",
          cred := none }) ∧
    (∀ (es : String) (ev : List String) (lk : String → Option GoUser)
      (un : String), (NewTerminal es ev lk un).cred = none) := by
  refine ⟨?_, ?_, ?_⟩
  · simp [NewTerminal, hn, hl, hh]
  · intro lookup2 h2
    simp [NewTerminal, hn, h2]
  · intro es ev lk un
    simp only [NewTerminal]
    repeat' split
    all_goals rfl

/-- C7 witness: concrete identity spawn under /bin/bash. -/
theorem C7_identity_spawn_witness :
    NewTerminal "/bin/bash" ["PATH=/usr/bin"]
        (fun _ => some ⟨"1000", "1000", "alice", "/home/alice"⟩) "alice" =
      { path := "/bin/bash", args := ["-l"],
        env := ["PATH=/usr/bin", "HOME=/home/alice", "USER=alice",
          "LOGNAME=alice", "TERM=xterm-256color"],
        dir := "/home/alice", cred := none } := by
  rw [(C7_identity_spawn "/bin/bash" ["PATH=/usr/bin"]
    (fun _ => some ⟨"1000", "1000", "alice", "/home/alice"⟩) "alice"
    ⟨"1000", "1000", "alice", "/home/alice"⟩ (by decide) rfl (by decide)).1]
  decide

/-- C8 counterexample: on the POSIX variant the first Close of an open
terminal succeeds, but a second Close on the same terminal returns the
file-already-closed error from closing the pty file twice — Close is not
idempotent in outcome there. -/
theorem C8_counterexample :
    (PosixPty.Terminal.close ⟨true, true⟩).2 = none ∧
    ((PosixPty.Terminal.close ⟨true, true⟩).1.close).2
      = some "file already closed" := ⟨rfl, rfl⟩

/-- C8 amended: the Windows variant's Close is idempotent (the body runs
once, the result is always nil, and a second call changes nothing); the
POSIX variant always attempts to kill the child and releases the pty, and
succeeds when the pty was open, but its second Close returns the
file-already-closed error. -/
theorem C8_close_behaviour :
    (∀ t : WinPty.Terminal, (t.close).2 = none ∧ ((t.close).1.close).2 = none ∧
      ((t.close).1.close).1 = (t.close).1) ∧
    (∀ t : PosixPty.Terminal, (t.close).1.procAlive = false ∧
      (t.close).1.ptyOpen = false ∧
      (t.ptyOpen = true → (t.close).2 = none) ∧
      ((t.close).1.close).2 = some "file already closed") := by
  constructor
  · intro t
    rcases t with ⟨o, c, r⟩
    cases o <;> simp [WinPty.Terminal.close]
  · intro t
    rcases t with ⟨p, q⟩
    cases q <;> simp [PosixPty.Terminal.close, PosixPty.fileClose]

/-- C8 witness: concrete closes on both variants. -/
theorem C8_close_behaviour_witness :
    ((⟨true, true⟩ : PosixPty.Terminal).close).2 = none ∧
    (((⟨false, false, false⟩ : WinPty.Terminal).close).1.close).2 = none :=
  ⟨(C8_close_behaviour.2 ⟨true, true⟩).2.2.1 rfl,
   (C8_close_behaviour.1 ⟨false, false, false⟩).2.1⟩

/-- C9: for every message of the catalogued core protocol types, encoding
with `MarshalMessage` and then decoding with `ParseMessage` followed by
the per-type `UnmarshalData` reproduces the message exactly (absent
`omitempty` members decode back to their zero values), and the payloadless
ping/pong messages are encoded with the `data` member omitted. -/
theorem C9_codec_roundtrip :
    (∀ m : AgentMsg, decodeMessage (MarshalMessage m) = some m) ∧
    MarshalMessage AgentMsg.ping = Json.obj [("type", Json.str "ping")] ∧
    MarshalMessage AgentMsg.pong = Json.obj [("type", Json.str "pong")] := by
  refine ⟨?_, rfl, rfl⟩
  intro m
  cases m <;>
    simp [MarshalMessage, decodeMessage, ParseMessage, UnmarshalData, msgType,
      msgData, getStr, jsonLookup, registerData_roundtrip,
      heartbeatData_roundtrip, ptyDataMsg_roundtrip, ptyExitMsg_roundtrip,
      cmdResultData_roundtrip, cmdErrorData_roundtrip,
      registerAckData_roundtrip, spawnPtyData_roundtrip, ptyInputData_roundtrip,
      ptyResizeData_roundtrip, closePtyData_roundtrip, execCmdData_roundtrip]

/-- C10: in every reachable state the atomically maintained counter equals
the number of registered sessions (hence it is never negative), and a
spawn whose terminal allocation fails changes nothing — it is never
counted. -/
theorem C10_counter_consistency (st : SMState) (h : Reachable st) :
    st.sessionCount = st.reg.length ∧ 0 ≤ st.sessionCount ∧
    (∀ (id : String) (now : Nat), (SpawnSession st id false now).1 = st) := by
  have inv := reachable_inv st h
  refine ⟨inv.count_eq, by rw [inv.count_eq]; exact Int.natCast_nonneg _, ?_⟩
  intro id now
  unfold SpawnSession
  split_ifs with h1 h2 h3 <;> first | rfl | simp at h3

/-- C10 witness: applied after one successful spawn, including a failed
spawn attempt that leaves the state unchanged. -/
theorem C10_counter_consistency_witness :
    (step SMState.init (MEvent.spawn "a" true 0)).sessionCount
        = (step SMState.init (MEvent.spawn "a" true 0)).reg.length ∧
    (SpawnSession (step SMState.init (MEvent.spawn "a" true 0)) "b" false 1).1
        = step SMState.init (MEvent.spawn "a" true 0) :=
  ⟨(C10_counter_consistency (step SMState.init (MEvent.spawn "a" true 0))
      (Reachable.step SMState.init (MEvent.spawn "a" true 0) Reachable.init)).1,
   (C10_counter_consistency (step SMState.init (MEvent.spawn "a" true 0))
      (Reachable.step SMState.init (MEvent.spawn "a" true 0) Reachable.init)).2.2
     "b" 1⟩

end Termix
